import Mathlib

/-!
Verification development for the xdmod-notebooks repository.

The notebooks' own code is the environment-file creation cell and the
ordering of the notebook cells; both are embedded directly from the
source.  The scoped warehouse session and the query operations are
provided by the external xdmod_data client, which is not part of the
repository; those parts are modelled from the specification, as noted
on each definition.
-/

/-- The credential file `~/xdmod-data.env`: its text content and its
permission mode bits, as manipulated by the env-file creation cell. -/
structure EnvFile where
  content : String
  mode : Nat
deriving DecidableEq

/-- The env-file creation cell of the notebooks: `try: open(path): pass`
succeeds when the file exists and changes nothing; on `FileNotFoundError`
the cell writes the single line `XDMOD_API_TOKEN=` and then chmods the
file to `0o600`. -/
def ensureEnvFile : Option EnvFile → Option EnvFile
  | some f => some f
  | none => some { content := "XDMOD_API_TOKEN=", mode := 0o600 }

/-- The kinds of code cells appearing in the raw-data notebook, in the
order the notebook instructs the user to run them. -/
inductive NotebookStep
  | installModules
  | configureFormatting
  | createEnvFile
  | loadDotenvStep
  | initWarehouse
  | warehouseScope
  | localProcessing
deriving DecidableEq

/-- The code cells of the raw-data notebook (src/unnamed/part_000), in
source order: pip install; exception, table and plot formatting; env-file
creation; load_dotenv; DataWarehouse construction; then the `with dw:`
scopes interleaved with local plotting/processing cells. -/
def rawDataNotebookCells : List NotebookStep :=
  [NotebookStep.installModules,
   NotebookStep.configureFormatting,
   NotebookStep.configureFormatting,
   NotebookStep.configureFormatting,
   NotebookStep.createEnvFile,
   NotebookStep.loadDotenvStep,
   NotebookStep.initWarehouse,
   NotebookStep.warehouseScope,
   NotebookStep.localProcessing,
   NotebookStep.localProcessing,
   NotebookStep.localProcessing,
   NotebookStep.localProcessing,
   NotebookStep.localProcessing,
   NotebookStep.localProcessing,
   NotebookStep.localProcessing,
   NotebookStep.warehouseScope,
   NotebookStep.localProcessing,
   NotebookStep.localProcessing,
   NotebookStep.warehouseScope,
   NotebookStep.localProcessing,
   NotebookStep.localProcessing,
   NotebookStep.warehouseScope,
   NotebookStep.warehouseScope,
   NotebookStep.warehouseScope,
   NotebookStep.warehouseScope,
   NotebookStep.warehouseScope,
   NotebookStep.warehouseScope,
   NotebookStep.warehouseScope,
   NotebookStep.warehouseScope]

/-- Modelled from the spec: the session "has exactly two states,
*closed* and *open*".  The implementing class lives in the external
xdmod_data library, not in this repository. -/
inductive SessionState
  | closed
  | opened
deriving DecidableEq

/-- Modelled from the spec: a scoped warehouse session.  `closeCount`
counts how many times the release side effects have run, the
side-channel counter the spec's testable properties refer to. -/
structure Session where
  state : SessionState
  closeCount : Nat
deriving DecidableEq

/-- Modelled from the spec: entering the `with dw:` scope opens the
session. -/
def Session.enter (s : Session) : Session :=
  { s with state := SessionState.opened }

/-- Modelled from the spec: Close "releases any connection/resource
state; is idempotent".  Releasing increments the side-effect counter
only when the session was open. -/
def Session.close (s : Session) : Session :=
  match s.state with
  | SessionState.opened =>
      { state := SessionState.closed, closeCount := s.closeCount + 1 }
  | SessionState.closed => s

/-- Modelled from the spec: the error kinds of §7. -/
inductive XdmodError
  | authenticationError
  | connectivityError
  | sessionClosedError
  | validationError
  | dataAvailabilityError
deriving DecidableEq

/-- Modelled from the spec: executing a `with dw:` block.  The scope is
entered (opening the session), the body runs and either returns a value
or an error, and the close step runs on scope exit on every path. -/
def runScope {α : Type} (s : Session) (body : Session → Except XdmodError α) :
    Except XdmodError α × Session :=
  let so := s.enter
  (body so, so.close)

/-- Modelled from the spec: the notebooks re-enter `with dw:` repeatedly
on the same DataWarehouse object; this folds a list of scope bodies over
one session. -/
def runScopes {α : Type} (s : Session)
    (bodies : List (Session → Except XdmodError α)) : Session :=
  bodies.foldl (fun t b => (runScope t b).2) s

/-- Modelled from the spec: a dimension value has both an ID and a
label, and "labels or IDs both accepted" wherever filter values are
given. -/
structure DimValue where
  valId : String
  valLabel : String
deriving DecidableEq

/-- Modelled from the spec: one raw record of the warehouse — a
date/time tag (a day number), the record's value for each dimension, and
its measurement fields. -/
structure RawRecord where
  date : Nat
  dims : List (String × DimValue)
  fields : List (String × String)
deriving DecidableEq

/-- Association lookup in a string-keyed list. -/
def lookupStr : List (String × String) → String → Option String
  | [], _ => none
  | (k, v) :: rest, key => if k = key then some v else lookupStr rest key

/-- Association lookup of a record's value for a dimension. -/
def lookupDim : List (String × DimValue) → String → Option DimValue
  | [], _ => none
  | (k, v) :: rest, key => if k = key then some v else lookupDim rest key

/-- Modelled from the spec: a record passes one filter entry when its
value for the dimension matches one of the given filter values, by ID or
by label. -/
def matchesFilter (r : RawRecord) (dim : String) (vals : List String) : Bool :=
  match lookupDim r.dims dim with
  | none => false
  | some v => vals.any (fun fv => fv = v.valId || fv = v.valLabel)

/-- Modelled from the spec: a record passes a filter mapping when it
passes every entry. -/
def matchesFilters (r : RawRecord) (filters : List (String × List String)) : Bool :=
  filters.all (fun p => matchesFilter r p.1 p.2)

/-- Modelled from the spec: the rows matching a query — duration bounds
are inclusive on both ends, and the filter mapping restricts dimension
values. -/
def selectRaw (wh : List RawRecord) (duration : Nat × Nat)
    (filters : List (String × List String)) : List RawRecord :=
  wh.filter (fun r =>
    decide (duration.1 ≤ r.date ∧ r.date ≤ duration.2) && matchesFilters r filters)

/-- Modelled from the spec: restricting a record to the mandatory
identity columns plus the requested fields, in that order, keeping only
columns the record actually has. -/
def projectFields (idcols requested : List String) (r : RawRecord) :
    List (String × String) :=
  (idcols ++ requested).filterMap
    (fun f => (lookupStr r.fields f).map (fun v => (f, v)))

/-- Modelled from the spec: a returned row — the selected record, its
columns restricted when a fields tuple was given. -/
def projectRow (idcols : List String) (fields : Option (List String))
    (r : RawRecord) : RawRecord :=
  match fields with
  | none => r
  | some requested => { r with fields := projectFields idcols requested r }

/-- Modelled from the spec: `get_raw_data` — select the matching raw
records; when a `fields` tuple is given, restrict each row's columns to
the mandatory identity columns plus the requested fields. -/
def get_raw_data (wh : List RawRecord) (duration : Nat × Nat)
    (filters : List (String × List String)) (idcols : List String)
    (fields : Option (List String)) : List RawRecord :=
  (selectRaw wh duration filters).map (projectRow idcols fields)

/-- Modelled from the spec: the grouping key of a record for a
dimension — the label of its value there. -/
def keyOf (dimension : String) (r : RawRecord) : String :=
  match lookupDim r.dims dimension with
  | some v => v.valLabel
  | none => ""

/-- Modelled from the spec: `dataset_type` is aggregate or timeseries. -/
inductive DatasetType
  | aggregate
  | timeseries
deriving DecidableEq

/-- Modelled from the spec: `get_data` — aggregate yields one value per
grouping key over the whole duration; timeseries yields one value per
(time-bucket, grouping key) pair, with `u` the aggregation-unit bucket
size in days and `agg` the metric aggregator delegated to the external
collaborator.  A key's time component is `none` in an aggregate result. -/
def get_data (wh : List RawRecord) (duration : Nat × Nat)
    (filters : List (String × List String)) (dimension : String)
    (u : Nat) (agg : List RawRecord → Int) (dt : DatasetType) :
    List ((Option Nat × String) × Int) :=
  let rs := selectRaw wh duration filters
  match dt with
  | DatasetType.aggregate =>
      ((rs.map (keyOf dimension)).dedup).map
        (fun k => (((none : Option Nat), k),
          agg (rs.filter (fun r => decide (keyOf dimension r = k)))))
  | DatasetType.timeseries =>
      ((rs.map (fun r => (r.date / u, keyOf dimension r))).dedup).map
        (fun k => ((some k.1, k.2),
          agg (rs.filter (fun r =>
            decide (r.date / u = k.1 ∧ keyOf dimension r = k.2)))))

/-- Modelled from the spec: a query descriptor, "an immutable record of
realm, metric-or-fields, dimension, filters, duration, dataset-type,
aggregation-unit, constructed per call". -/
structure QueryDescriptor where
  realm : String
  duration : Nat × Nat
  filters : List (String × List String)
  dimension : String
  aggregation_unit : Nat
  dataset_type : DatasetType
  fields : Option (List String)
deriving DecidableEq

/-- Modelled from the spec: the query operations of §4.1. -/
inductive QueryOp
  | fetch_aggregate (d : QueryDescriptor)
  | fetch_raw (d : QueryDescriptor)
  | describe_realms
  | describe_metrics (realm : String)
  | describe_dimensions (realm : String)
  | list_filter_values (realm dimension : String)
  | list_durations
  | list_aggregation_units
deriving DecidableEq

/-- Modelled from the spec: the result of a query operation — a raw-data
table, an aggregated table, or a list of names. -/
inductive QueryResult
  | rawTable (rows : List RawRecord)
  | dataTable (rows : List ((Option Nat × String) × Int))
  | names (xs : List String)

/-- Modelled from the spec: the remote warehouse the session talks to —
its raw records, its catalogs, and the metric aggregator. -/
structure Warehouse where
  records : List RawRecord
  idcols : List String
  realms : List String
  metrics : String → List String
  dimensions : String → List String
  filterValues : String → String → List String
  durations : List String
  aggregationUnits : List String
  agg : List RawRecord → Int

/-- Modelled from the spec: running one query operation against a
session — "each requires the session to be open; calling any of them on
a closed session fails with a SessionClosedError". -/
def runOp (wh : Warehouse) (s : Session) (op : QueryOp) :
    Except XdmodError QueryResult :=
  match s.state with
  | SessionState.closed => Except.error XdmodError.sessionClosedError
  | SessionState.opened =>
      match op with
      | QueryOp.fetch_aggregate d =>
          Except.ok (QueryResult.dataTable
            (get_data wh.records d.duration d.filters d.dimension
              d.aggregation_unit wh.agg d.dataset_type))
      | QueryOp.fetch_raw d =>
          Except.ok (QueryResult.rawTable
            (get_raw_data wh.records d.duration d.filters wh.idcols d.fields))
      | QueryOp.describe_realms => Except.ok (QueryResult.names wh.realms)
      | QueryOp.describe_metrics r => Except.ok (QueryResult.names (wh.metrics r))
      | QueryOp.describe_dimensions r =>
          Except.ok (QueryResult.names (wh.dimensions r))
      | QueryOp.list_filter_values r dim =>
          Except.ok (QueryResult.names (wh.filterValues r dim))
      | QueryOp.list_durations => Except.ok (QueryResult.names wh.durations)
      | QueryOp.list_aggregation_units =>
          Except.ok (QueryResult.names wh.aggregationUnits)

/-- A concrete warehouse used to instantiate hypotheses of the theorems
below at evaluable inputs. -/
def wh0 : Warehouse :=
  { records := [],
    idcols := [],
    realms := ["SUPREMM"],
    metrics := fun _ => [],
    dimensions := fun _ => [],
    filterValues := fun _ _ => [],
    durations := [],
    aggregationUnits := [],
    agg := fun _ => 0 }

/-- A concrete closed session. -/
def sClosed : Session := { state := SessionState.closed, closeCount := 0 }

/-- Claim C5: when the credential file is absent, the env-file creation
cell creates it containing the single line `XDMOD_API_TOKEN=` with mode
0o600, and in the notebook the load_dotenv cell comes before the first
`with dw:` scope, so the file's contents are loaded into the environment
before the session is entered. -/
theorem env_file_created_and_loaded_before_session (fs : Option EnvFile)
    (h : fs = none) :
    ensureEnvFile fs = some { content := "XDMOD_API_TOKEN=", mode := 0o600 } ∧
    rawDataNotebookCells.findIdx (fun c => c = NotebookStep.loadDotenvStep) <
      rawDataNotebookCells.findIdx (fun c => c = NotebookStep.warehouseScope) := by
  subst h
  exact ⟨rfl, by decide⟩

/-- Witness for C5 at the concrete absent-file state. -/
theorem env_file_created_and_loaded_before_session_witness :
    ensureEnvFile none = some { content := "XDMOD_API_TOKEN=", mode := 0o600 } ∧
    rawDataNotebookCells.findIdx (fun c => c = NotebookStep.loadDotenvStep) <
      rawDataNotebookCells.findIdx (fun c => c = NotebookStep.warehouseScope) :=
  env_file_created_and_loaded_before_session none rfl

/-- Claim C10: when the credential file already exists, the env-file
creation cell leaves it entirely unchanged — same contents, same
permission mode. -/
theorem env_file_preserved_when_present (f : EnvFile) :
    ensureEnvFile (some f) = some f := rfl

/-- Claim C1: if the body of a `with dw:` scope raises an error, the
close step still runs exactly once on scope exit (the release counter
increases by exactly one and the session ends closed) and the same error
propagates to the caller unmodified. -/
theorem scope_error_still_closes {α : Type} (s : Session)
    (body : Session → Except XdmodError α) (e : XdmodError)
    (h : body s.enter = Except.error e) :
    (runScope s body).1 = Except.error e ∧
    (runScope s body).2.closeCount = s.closeCount + 1 ∧
    (runScope s body).2.state = SessionState.closed := by
  refine ⟨h, ?_, ?_⟩ <;> simp [runScope, Session.enter, Session.close]

/-- Witness for C1: a body failing with a validation error inside a
scope over a concrete session. -/
theorem scope_error_still_closes_witness :
    (runScope sClosed (fun _ =>
        (Except.error XdmodError.validationError : Except XdmodError Nat))).1 =
      Except.error XdmodError.validationError ∧
    (runScope sClosed (fun _ =>
        (Except.error XdmodError.validationError : Except XdmodError Nat))).2.closeCount =
      sClosed.closeCount + 1 ∧
    (runScope sClosed (fun _ =>
        (Except.error XdmodError.validationError : Except XdmodError Nat))).2.state =
      SessionState.closed :=
  scope_error_still_closes sClosed
    (fun _ => (Except.error XdmodError.validationError : Except XdmodError Nat))
    XdmodError.validationError rfl

/-- Claim C2: on a closed session, every query operation of any sequence
of operations fails with SessionClosedError. -/
theorem closed_session_ops_fail (wh : Warehouse) (s : Session)
    (h : s.state = SessionState.closed) (ops : List QueryOp) :
    ∀ op ∈ ops, runOp wh s op = Except.error XdmodError.sessionClosedError := by
  intro op _
  unfold runOp
  rw [h]

/-- Witness for C2: a describe_realms call on a concrete closed
session. -/
theorem closed_session_ops_fail_witness :
    runOp wh0 sClosed QueryOp.describe_realms =
      Except.error XdmodError.sessionClosedError :=
  closed_session_ops_fail wh0 sClosed rfl [QueryOp.describe_realms]
    QueryOp.describe_realms (List.mem_singleton.mpr rfl)

/-- Claim C3: close is idempotent — closing an already-closed session
changes nothing, so closing twice runs the release side effects only
once. -/
theorem close_idempotent (s : Session) :
    Session.close (Session.close s) = Session.close s ∧
    (Session.close (Session.close s)).closeCount = (Session.close s).closeCount := by
  have h : Session.close (Session.close s) = Session.close s := by
    cases s with
    | mk st c => cases st <;> simp [Session.close]
  exact ⟨h, by rw [h]⟩

/-- Claim C4: a session has exactly the two states closed and open, and
each `with dw:` use transitions it open→closed exactly once on scope
exit (whether the body returned or erred); re-entering scopes repeatedly
on the same object performs exactly one such transition per scope. -/
theorem session_two_states_one_transition_per_scope :
    (∀ st : SessionState, st = SessionState.closed ∨ st = SessionState.opened) ∧
    (∀ (α : Type) (s : Session) (body : Session → Except XdmodError α),
      (runScope s body).2.state = SessionState.closed ∧
      (runScope s body).2.closeCount = s.closeCount + 1) ∧
    (∀ (α : Type) (s : Session) (bodies : List (Session → Except XdmodError α)),
      (runScopes s bodies).state =
        (if bodies.isEmpty then s.state else SessionState.closed) ∧
      (runScopes s bodies).closeCount = s.closeCount + bodies.length) := by
  refine ⟨fun st => by cases st <;> simp, ?_, ?_⟩
  · intro α s body
    constructor <;> simp [runScope, Session.enter, Session.close]
  · intro α s bodies
    induction bodies generalizing s with
    | nil => simp [runScopes]
    | cons b bs ih =>
        have hstep : (runScope s b).2.state = SessionState.closed ∧
            (runScope s b).2.closeCount = s.closeCount + 1 := by
          constructor <;> simp [runScope, Session.enter, Session.close]
        have hrec := ih (runScope s b).2
        have hone : runScopes s (b :: bs) = runScopes (runScope s b).2 bs := by
          simp [runScopes]
        constructor
        · rw [hone]
          rcases hrec with ⟨h1, _⟩
          cases bs with
          | nil =>
              simp only [runScopes, List.foldl_nil] at h1
              simp [runScopes, hstep.1]
          | cons b2 bs2 => simpa using h1
        · rw [hone]
          rcases hrec with ⟨_, h2⟩
          rw [h2, hstep.2]
          simp only [List.length_cons]
          omega

/-- Membership in a raw selection unpacks to membership in the
warehouse, the inclusive duration bounds, and the filter predicate. -/
theorem mem_selectRaw {wh : List RawRecord} {d : Nat × Nat}
    {fl : List (String × List String)} {r : RawRecord}
    (h : r ∈ selectRaw wh d fl) :
    r ∈ wh ∧ (d.1 ≤ r.date ∧ r.date ≤ d.2) ∧ matchesFilters r fl = true := by
  unfold selectRaw at h
  rw [List.mem_filter] at h
  rcases h with ⟨hw, hb⟩
  simp only [Bool.and_eq_true, decide_eq_true_eq] at hb
  exact ⟨hw, hb.1, hb.2⟩

/-- Membership in a raw-data result comes from a selected record,
projected when a fields tuple was given. -/
theorem mem_get_raw_data {wh : List RawRecord} {d : Nat × Nat}
    {fl : List (String × List String)} {idcols : List String}
    {fields : Option (List String)} {r : RawRecord}
    (h : r ∈ get_raw_data wh d fl idcols fields) :
    ∃ r0 ∈ selectRaw wh d fl, r = projectRow idcols fields r0 := by
  unfold get_raw_data at h
  rw [List.mem_map] at h
  rcases h with ⟨r0, hr0, heq⟩
  exact ⟨r0, hr0, heq.symm⟩

/-- Projection changes neither the date tag nor the dimension values of
a row. -/
theorem projectRow_date_dims (idcols : List String)
    (fields : Option (List String)) (r : RawRecord) :
    (projectRow idcols fields r).date = r.date ∧
    (projectRow idcols fields r).dims = r.dims := by
  cases fields <;> simp [projectRow]

/-- The column names of a projection are the candidate columns the
record actually has, in candidate order. -/
theorem projectFields_names (l : List String) (fs : List (String × String)) :
    ((l.filterMap (fun f => (lookupStr fs f).map (fun v => (f, v)))).map
        Prod.fst) =
      l.filter (fun f => (lookupStr fs f).isSome) := by
  induction l with
  | nil => rfl
  | cons a l ih => cases h : lookupStr fs a <;> simp [h, ih]

/-- Claim C6: duration bounds are inclusive, so a fetch whose duration
is the pair (d, d) returns only rows whose date tag is exactly d. -/
theorem duration_single_day (wh : List RawRecord)
    (fl : List (String × List String)) (idcols : List String)
    (fields : Option (List String)) (d : Nat) (r : RawRecord)
    (h : r ∈ get_raw_data wh (d, d) fl idcols fields) : r.date = d := by
  rcases mem_get_raw_data h with ⟨r0, hr0, heq⟩
  rcases mem_selectRaw hr0 with ⟨_, ⟨h1, h2⟩, _⟩
  rw [heq, (projectRow_date_dims idcols fields r0).1]
  exact Nat.le_antisymm h2 h1

/-- A one-record warehouse used to instantiate the raw-data theorems. -/
def whRec : RawRecord :=
  { date := 5,
    dims := [("Resource", { valId := "2900", valLabel := "Bridges 2 RM" })],
    fields := [("jobid", "1"), ("Wall Time", "10"), ("Total memory used", "20")] }

/-- Witness for C6: the single-day fetch over a concrete one-record
warehouse returns that record, whose date tag is that day. -/
theorem duration_single_day_witness : whRec.date = 5 :=
  duration_single_day [whRec] [] [] none 5 whRec (by decide)

/-- Claim C7: when the filter mapping sends a dimension to a set of
filter values, every returned row's value for that dimension matches one
of the given values, by ID or by label. -/
theorem filters_restrict_rows (wh : List RawRecord) (d : Nat × Nat)
    (fl : List (String × List String)) (idcols : List String)
    (fields : Option (List String)) (dim : String) (vals : List String)
    (r : RawRecord) (hf : (dim, vals) ∈ fl)
    (hr : r ∈ get_raw_data wh d fl idcols fields) :
    ∃ v, lookupDim r.dims dim = some v ∧
      ∃ fv ∈ vals, fv = v.valId ∨ fv = v.valLabel := by
  rcases mem_get_raw_data hr with ⟨r0, hr0, heq⟩
  rcases mem_selectRaw hr0 with ⟨_, _, hm⟩
  have hdims : r.dims = r0.dims := by
    rw [heq]
    exact (projectRow_date_dims idcols fields r0).2
  unfold matchesFilters at hm
  rw [List.all_eq_true] at hm
  have hone := hm (dim, vals) hf
  unfold matchesFilter at hone
  rw [hdims]
  cases hl : lookupDim r0.dims dim with
  | none => rw [hl] at hone; exact absurd hone (by simp)
  | some v =>
      rw [hl] at hone
      rw [List.any_eq_true] at hone
      rcases hone with ⟨fv, hfv, hb⟩
      simp only [Bool.or_eq_true, decide_eq_true_eq] at hb
      exact ⟨v, rfl, fv, hfv, hb⟩

/-- Witness for C7: a fetch filtered on the Resource dimension over the
concrete one-record warehouse. -/
theorem filters_restrict_rows_witness :
    ∃ v, lookupDim whRec.dims "Resource" = some v ∧
      ∃ fv ∈ ["Bridges 2 RM", "STAMPEDE2 TACC"],
        fv = v.valId ∨ fv = v.valLabel :=
  filters_restrict_rows [whRec] (5, 5)
    [("Resource", ["Bridges 2 RM", "STAMPEDE2 TACC"])] [] none "Resource"
    ["Bridges 2 RM", "STAMPEDE2 TACC"] whRec (by decide) (by decide)

/-- Claim C8: a raw fetch with an explicit fields tuple returns columns
drawn only from the mandatory identity columns plus the requested
fields — never unrelated fields — and when the warehouse records carry
all those columns, the column set is exactly the identity columns plus
the requested fields. -/
theorem fields_roundtrip (wh : List RawRecord) (d : Nat × Nat)
    (fl : List (String × List String)) (idcols requested : List String) :
    (∀ r ∈ get_raw_data wh d fl idcols (some requested),
      ∀ c ∈ r.fields.map Prod.fst, c ∈ idcols ++ requested) ∧
    ((∀ rr ∈ wh, ∀ f ∈ idcols ++ requested,
        (lookupStr rr.fields f).isSome = true) →
      ∀ r ∈ get_raw_data wh d fl idcols (some requested),
        r.fields.map Prod.fst = idcols ++ requested) := by
  constructor
  · intro r hr c hc
    rcases mem_get_raw_data hr with ⟨r0, _, heq⟩
    have hfields : r.fields = projectFields idcols requested r0 := by
      rw [heq]; rfl
    rw [hfields] at hc
    unfold projectFields at hc
    rw [projectFields_names] at hc
    exact List.mem_of_mem_filter hc
  · intro hall r hr
    rcases mem_get_raw_data hr with ⟨r0, hr0, heq⟩
    have hfields : r.fields = projectFields idcols requested r0 := by
      rw [heq]; rfl
    have hw : r0 ∈ wh := (mem_selectRaw hr0).1
    rw [hfields]
    unfold projectFields
    rw [projectFields_names]
    exact List.filter_eq_self.mpr (fun f hf => hall r0 hw f hf)

/-- Witness for C8: fetching the Wall Time and Total memory used fields
over the concrete one-record warehouse, with jobid as the identity
column, yields exactly those columns. -/
theorem fields_roundtrip_witness :
    (RawRecord.mk 5
        [("Resource", { valId := "2900", valLabel := "Bridges 2 RM" })]
        [("jobid", "1"), ("Wall Time", "10"),
          ("Total memory used", "20")]).fields.map Prod.fst =
      ["jobid"] ++ ["Wall Time", "Total memory used"] :=
  (fields_roundtrip [whRec] (5, 5) [] ["jobid"]
      ["Wall Time", "Total memory used"]).2 (by decide)
    (RawRecord.mk 5
      [("Resource", { valId := "2900", valLabel := "Bridges 2 RM" })]
      [("jobid", "1"), ("Wall Time", "10"), ("Total memory used", "20")])
    (by decide)

/-- Claim C9: with identical parameters, an aggregate fetch has exactly
one value per grouping key — its key list is duplicate-free and is
precisely the distinct keys of the matching records — while a timeseries
fetch has exactly one value per (time-bucket, grouping key) pair. -/
theorem dataset_type_granularity (wh : List RawRecord) (d : Nat × Nat)
    (fl : List (String × List String)) (dimension : String) (u : Nat)
    (agg : List RawRecord → Int) :
    ((get_data wh d fl dimension u agg DatasetType.aggregate).map
        (fun p => p.1.2)).Nodup ∧
    (get_data wh d fl dimension u agg DatasetType.aggregate).map
        (fun p => p.1.2) =
      ((selectRaw wh d fl).map (keyOf dimension)).dedup ∧
    ((get_data wh d fl dimension u agg DatasetType.timeseries).map
        Prod.fst).Nodup ∧
    (get_data wh d fl dimension u agg DatasetType.timeseries).map
        Prod.fst =
      ((selectRaw wh d fl).map
          (fun r => (r.date / u, keyOf dimension r))).dedup.map
        (fun k => ((some k.1 : Option Nat), k.2)) := by
  have ha : (get_data wh d fl dimension u agg DatasetType.aggregate).map
      (fun p => p.1.2) =
      ((selectRaw wh d fl).map (keyOf dimension)).dedup := by
    unfold get_data
    rw [List.map_map]
    exact List.map_id _
  have ht : (get_data wh d fl dimension u agg DatasetType.timeseries).map
      Prod.fst =
      ((selectRaw wh d fl).map
          (fun r => (r.date / u, keyOf dimension r))).dedup.map
        (fun k => ((some k.1 : Option Nat), k.2)) := by
    unfold get_data
    rw [List.map_map]
    rfl
  refine ⟨?_, ha, ?_, ht⟩
  · rw [ha]; exact List.nodup_dedup _
  · rw [ht]
    refine List.Nodup.map ?_ (List.nodup_dedup _)
    intro a b hab
    simp only [Prod.mk.injEq, Option.some.injEq] at hab
    exact Prod.ext hab.1 hab.2
